import Mathlib

/-!
Verification of the scroll registration library (vulcan/vulcand packages).

Go strings are embedded as `List Char`; Go code is translated function by
function from the source files:
  - `src/vulcan/location.go`   (location ID / path-expression builders)
  - `src/vulcand/registry.go`  (lease-scoped registry, Start/Stop)
  - the `registry` package     (SingleMasterRegistry)
-/

abbrev Str := List Char

/-- Go `strings.Replace(s, old, new, -1)` for a one-character pattern:
with a single-character `old` the substring replacement is exactly a
character-wise map. -/
def replaceChar (old new : Char) (s : Str) : Str :=
  s.map (fun c => if c = old then new else c)

/-- Go `strings.ToLower` restricted to the ASCII inputs used here,
character-wise lowering. -/
def goToLower (s : Str) : Str :=
  s.map Char.toLower

/-- Go `strings.Join(xs, sep)`. -/
def goJoin (xs : List Str) (sep : Str) : Str :=
  sep.intercalate xs

/-- Go `convertPath` from `src/vulcan/location.go`: replaces curly brackets
with angle brackets. -/
def convertPath (path : Str) : Str :=
  replaceChar '}' '>' (replaceChar '{' '<' path)

/-- Go `makeLocationID` from `src/vulcan/location.go`:
`strings.ToLower(strings.Replace(join(methods, ".") + path, "/", ".", -1))`. -/
def makeLocationID (methods : List Str) (path : Str) : Str :=
  goToLower (replaceChar '/' '.' (goJoin methods ['.'] ++ path))

/-- Go `makeLocationPath` from `src/vulcan/location.go`:
`fmt.Sprintf("TrieRoute(\"%v\", \"%v\")", strings.Join(methods, "\", \""), path)`. -/
def makeLocationPath (methods : List Str) (path : Str) : Str :=
  ("TrieRoute(\"").data ++ goJoin methods ("\", \"").data
    ++ ("\", \"").data ++ path ++ ("\")").data

/-- The ID field of `NewLocation` (`src/vulcan/location.go`): the path is
first converted, then the ID derived. -/
def locationID (methods : List Str) (path : Str) : Str :=
  makeLocationID methods (convertPath path)

/-- The Path field of `NewLocation`: the route-match expression over the
converted path. -/
def locationPathExpr (methods : List Str) (path : Str) : Str :=
  makeLocationPath methods (convertPath path)

/-- Go `LocationOptions.MarshalJSON` from `src/vulcan/location.go`: returns
`fmt.Sprintf("{\"FailoverPredicate\": \"%v\"}", o.FailoverPredicate)` as bytes
and a nil error (modelled as `none`). -/
def locationOptionsMarshalJSON (failoverPredicate : Str) : Str × Option Str :=
  (("\x7b\"FailoverPredicate\": \"").data ++ failoverPredicate ++ ("\"\x7d").data, none)

/-- Go `defaultFailoverPredicate` from `src/vulcan/location.go`. -/
def defaultFailoverPredicate : Str :=
  ("(IsNetworkError() || ResponseCode() == 503) && Attempts() <= 2").data

/-- The location-ID formula as the spec words it: lowercase of the joined
methods concatenated with the path, where only the path has had curly
brackets rewritten and slashes replaced by dots. -/
def specLocationID (methods : List Str) (path : Str) : Str :=
  goToLower (goJoin methods ['.'] ++ replaceChar '/' '.' (convertPath path))

/-- A string wrapped in double quotes, as the methods and path appear in the
spec's route-match format. -/
def quoteStr (s : Str) : Str :=
  '"' :: (s ++ ['"'])

/-- The route-match expression as the spec words it: `TrieRoute(` followed by
the double-quoted methods in caller order and the double-quoted converted
path, comma-separated, then `)`. -/
def trieRouteSpecForm (methods : List Str) (path : Str) : Str :=
  ("TrieRoute(").data ++ goJoin ((methods ++ [path]).map quoteStr) ((", ").data)
    ++ (")").data

/-- The standard uppercase ASCII letters, the alphabet of HTTP method names. -/
def upperChars : List Char := ("ABCDEFGHIJKLMNOPQRSTUVWXYZ").data

/-- The character transformation `makeLocationID` applies: slash to dot, then
lowercase. -/
def idChar (c : Char) : Char :=
  Char.toLower (if c = '/' then '.' else c)

/-- Go `etcd.Config` as used by `src/vulcand/registry.go`: only the endpoint
list matters here. -/
structure EtcdConfig where
  Endpoints : List Str
deriving DecidableEq

/-- Go `Config` from `src/vulcand/registry.go`.  `TTL` is Go `time.Duration`,
a signed 64-bit count of nanoseconds, embedded as `Int`. -/
structure Config where
  Etcd : Option EtcdConfig
  Chroot : Str
  TTL : Int
deriving DecidableEq

/-- Go `localEtcdProxy` from `src/vulcand/registry.go`. -/
def localEtcdProxy : Str := ("127.0.0.1:2379").data

/-- Go `defaultRegistrationTTL = 30 * time.Second` from `src/vulcand/registry.go`,
in nanoseconds. -/
def defaultRegistrationTTL : Int := 30 * 1000000000

/-- The configuration-defaulting steps of `NewRegistry`
(`src/vulcand/registry.go`, the two `if` statements): a non-positive TTL
becomes the default, a nil Etcd config becomes the local proxy endpoint. -/
def newRegistryConfig (cfg : Config) : Config :=
  let cfg1 := if cfg.TTL ≤ 0 then { cfg with TTL := defaultRegistrationTTL } else cfg
  match cfg1.Etcd with
  | none => { cfg1 with Etcd := some ⟨[localEtcdProxy]⟩ }
  | some _ => cfg1

/-- Modelled from the spec: `vulcan.Endpoint` — its defining file is not in
src/; only the fields the registry reads (`ID`, `Name`) are needed. -/
structure Endpoint where
  ID : Str
  Name : Str
deriving DecidableEq

/-- Go `SingleMasterRegistry` from the registry package source. -/
structure SMRegistry where
  Key : Str
  TTL : Nat
  IsMaster : Bool
deriving DecidableEq

/-- The etcd client operations a SingleMasterRegistry issues. -/
inductive SMOp where
  | set (key : Str) (value : Str) (ttl : Nat)
  | create (key : Str) (value : Str) (ttl : Nat)
  | compareAndSwap (key : Str) (value : Str) (ttl : Nat)
deriving DecidableEq

/-- Injected collaborator results for one registry call: the spec builders
(`NewEndpointWithID`, `BackendSpec`, `ServerSpec` — defined outside src/) and
the etcd client responses. -/
structure SMEnv where
  endpointRes : Except Str Endpoint
  backendSpecRes : Except Str Str
  serverSpecRes : Except Str Str
  setErr : Option Str
  createErr : Option Str
  casErr : Option Str

/-- Key format `%s/backends/%s/backend` from the registry package. -/
def smBackendKey (root name : Str) : Str :=
  root ++ ("/backends/").data ++ name ++ ("/backend").data

/-- Key format `%s/backends/%s/servers/%s` from the registry package. -/
def smServerKey (root name id : Str) : Str :=
  root ++ ("/backends/").data ++ name ++ ("/servers/").data ++ id

/-- Go `SingleMasterRegistry.registerBackend`: build the backend spec, then
`Client.Set(key, backend, 0)`; errors propagate. -/
def smRegisterBackend (s : SMRegistry) (ep : Endpoint) (env : SMEnv) :
    Option Str × List SMOp :=
  match env.backendSpecRes with
  | .error e => (some e, [])
  | .ok backend =>
    let op := SMOp.set (smBackendKey s.Key ep.Name) backend 0
    match env.setErr with
    | some e => (some e, [op])
    | none => (none, [op])

/-- Go `SingleMasterRegistry.assumeMasterRole`: a `ServerSpec` failure returns
nil (the error is discarded and nothing is written); a successful
`Client.Create` under the TTL makes this instance master. -/
def smAssumeMasterRole (s : SMRegistry) (ep : Endpoint) (env : SMEnv) :
    Option Str × List SMOp × SMRegistry :=
  match env.serverSpecRes with
  | .error _ => (none, [], s)
  | .ok server =>
    let op := SMOp.create (smServerKey s.Key ep.Name ep.ID) server s.TTL
    match env.createErr with
    | some e => (some e, [op], s)
    | none => (none, [op], { s with IsMaster := true })

/-- Go `SingleMasterRegistry.maintainMasterRole`: a `ServerSpec` failure returns
nil (the error is discarded and nothing is written); a failed
`CompareAndSwap` demotes this instance. -/
def smMaintainMasterRole (s : SMRegistry) (ep : Endpoint) (env : SMEnv) :
    Option Str × List SMOp × SMRegistry :=
  match env.serverSpecRes with
  | .error _ => (none, [], s)
  | .ok server =>
    let op := SMOp.compareAndSwap (smServerKey s.Key ep.Name ep.ID) server s.TTL
    match env.casErr with
    | some e => (some e, [op], { s with IsMaster := false })
    | none => (none, [op], { s with IsMaster := true })

/-- Go `SingleMasterRegistry.registerServer`. -/
def smRegisterServer (s : SMRegistry) (ep : Endpoint) (env : SMEnv) :
    Option Str × List SMOp × SMRegistry :=
  if s.IsMaster then smMaintainMasterRole s ep env else smAssumeMasterRole s ep env

/-- Go `SingleMasterRegistry.RegisterApp`: build the endpoint — returning nil on
failure — then register backend and server. -/
def smRegisterApp (s : SMRegistry) (env : SMEnv) :
    Option Str × List SMOp × SMRegistry :=
  match env.endpointRes with
  | .error _ => (none, [], s)
  | .ok ep =>
    match smRegisterBackend s ep env with
    | (some e, ops) => (some e, ops, s)
    | (none, ops) =>
      match smRegisterServer s ep env with
      | (err, ops2, s2) => (err, ops ++ ops2, s2)

/-- Modelled from the spec: `vulcand.Middleware` — its defining file is not
in src/; per spec section 3 it carries an `ID` and an int `Priority` that
registration overwrites with the list position (plus JSON-serializable
config, irrelevant here). -/
structure Middleware where
  ID : Str
  Priority : Int
deriving DecidableEq

/-- The etcd keys `Registry` writes, one constructor per format constant of
`src/vulcand/registry.go` (`backendFmt`, `serverFmt`, `frontendFmt`,
`middlewareFmt`). -/
inductive VKey where
  | backendType (chroot app : Str)
  | server (chroot app id : Str)
  | frontend (chroot host id : Str)
  | middleware (chroot host id mwid : Str)
deriving DecidableEq

/-- The string each key renders to, per the `fmt.Sprintf` format constants. -/
def VKey.render : VKey → Str
  | .backendType c a => c ++ ("/backends/").data ++ a ++ ("/backend").data
  | .server c a i => c ++ ("/backends/").data ++ a ++ ("/servers/").data ++ i
  | .frontend c h i => c ++ ("/frontends/").data ++ h ++ ['.'] ++ i ++ ("/frontend").data
  | .middleware c h i m =>
      c ++ ("/frontends/").data ++ h ++ ['.'] ++ i ++ ("/middlewares/").data ++ m

/-- A value written to the store: either an opaque serialized document, or —
for middlewares, whose `json.Marshal` output embeds the assigned priority —
the marshalled middleware itself (modelled from the spec; the struct is not
in src/ and its config marshalling is treated as total). -/
inductive VVal where
  | raw (s : Str)
  | mwDoc (m : Middleware)
deriving DecidableEq

/-- One `client.Put` call: key, value and whether `etcd.WithLease` was
passed. -/
structure VPut where
  key : VKey
  val : VVal
  leased : Bool
deriving DecidableEq

/-- Modelled from the spec: `backendSpec` (vulcand `spec.go` is not in
src/) — the fields and serialized documents `Registry` reads:
`AppName`, `ID`, `typeSpec()` and `serverSpec()` results. -/
structure BackendSpec where
  AppName : Str
  ID : Str
  typeSpecVal : Str
  serverSpecVal : Str
deriving DecidableEq

/-- Modelled from the spec: `frontendSpec` (vulcand `spec.go` is not in
src/) — the fields `Registry` reads: `Host`, `ID`, `spec()` result and the
ordered middleware list. -/
structure FrontendSpec where
  Host : Str
  ID : Str
  specVal : Str
  Middlewares : List Middleware
deriving DecidableEq

/-- The `Registry` fields `Start` reads. -/
structure VRegistry where
  chroot : Str
  backendSpec : BackendSpec
  frontendSpecs : List FrontendSpec

/-- The store's response schedule: for the n-th put issued, `none` means
success and `some e` a failed request with error `e`. -/
abbrev EtcdStore := Nat → Option Str

/-- A Go error as produced by `github.com/pkg/errors`: the underlying cause
plus the stack of `Wrapf` messages, outermost first. -/
structure GoErr where
  msgs : List Str
  base : Str
deriving DecidableEq

/-- Go `errors.Wrapf`. -/
def wrapErr (m : Str) (e : GoErr) : GoErr :=
  ⟨m :: e.msgs, e.base⟩

/-- Put-issuing state: how many puts were issued and which succeeded. -/
structure WriteState where
  opIdx : Nat
  puts : List VPut
deriving DecidableEq

/-- One `client.Put` against the response schedule. -/
def doPut (store : EtcdStore) (k : VKey) (v : VVal) (leased : Bool)
    (st : WriteState) : WriteState × Option GoErr :=
  match store st.opIdx with
  | some e => ({ st with opIdx := st.opIdx + 1 }, some ⟨[], e⟩)
  | none => (⟨st.opIdx + 1, st.puts ++ [⟨k, v, leased⟩]⟩, none)

/-- Go `Registry.registerBackend` (`src/vulcand/registry.go`): put the
backend-type document without a lease, then the server document under the
lease; each failure is wrapped with the failing key.  (The final
`errors.Wrapf(nil, ...)` of the Go code is nil, i.e. `none`.) -/
def vRegisterBackend (chroot : Str) (bes : BackendSpec) (store : EtcdStore)
    (st : WriteState) : WriteState × Option GoErr :=
  match doPut store (.backendType chroot bes.AppName) (.raw bes.typeSpecVal) false st with
  | (st1, some e) =>
    (st1, some (wrapErr (("failed to set backend type, ").data
      ++ (VKey.backendType chroot bes.AppName).render) e))
  | (st1, none) =>
    match doPut store (.server chroot bes.AppName bes.ID) (.raw bes.serverSpecVal) true st1 with
    | (st2, some e) =>
      (st2, some (wrapErr (("failed to set backend spec, ").data
        ++ (VKey.server chroot bes.AppName bes.ID).render) e))
    | (st2, none) => (st2, none)

/-- The middleware loop of `Registry.registerFrontend`: each middleware's
priority is overwritten with its position, the marshalled document is put
without a lease, and a failure is wrapped with the failing key. -/
def vPutMiddlewares (store : EtcdStore) (chroot host id : Str)
    (mws : List Middleware) (i : Nat) (st : WriteState) :
    WriteState × Option GoErr :=
  match mws with
  | [] => (st, none)
  | m :: rest =>
    let m2 : Middleware := { m with Priority := Int.ofNat i }
    match doPut store (.middleware chroot host id m2.ID) (.mwDoc m2) false st with
    | (st1, some e) =>
      (st1, some (wrapErr (("failed to set middleware, ").data
        ++ (VKey.middleware chroot host id m2.ID).render) e))
    | (st1, none) => vPutMiddlewares store chroot host id rest (i + 1) st1

/-- Go `Registry.registerFrontend`: put the frontend document without a lease,
then the middlewares in order. -/
def vRegisterFrontend (store : EtcdStore) (chroot : Str) (fes : FrontendSpec)
    (st : WriteState) : WriteState × Option GoErr :=
  match doPut store (.frontend chroot fes.Host fes.ID) (.raw fes.specVal) false st with
  | (st1, some e) =>
    (st1, some (wrapErr (("failed to set frontend spec, ").data
      ++ (VKey.frontend chroot fes.Host fes.ID).render) e))
  | (st1, none) => vPutMiddlewares store chroot fes.Host fes.ID fes.Middlewares 0 st1

/-- The outcome of `Start`: the successful puts, the returned error, and
whether `Start` called `cancelFunc` itself. -/
structure StartOutcome where
  puts : List VPut
  error : Option GoErr
  cancelled : Bool
deriving DecidableEq

/-- The frontend loop of `Registry.Start`: on a failed frontend registration
the context is cancelled and the wrapped error returned. -/
def vStartFrontends (store : EtcdStore) (chroot : Str)
    (fes : List FrontendSpec) (st : WriteState) : StartOutcome :=
  match fes with
  | [] => ⟨st.puts, none, false⟩
  | f :: rest =>
    match vRegisterFrontend store chroot f st with
    | (st1, some e) =>
      ⟨st1.puts, some (wrapErr (("failed to register frontend, ").data ++ f.ID) e), true⟩
    | (st1, none) => vStartFrontends store chroot rest st1

/-- Go `Registry.Start` (`src/vulcand/registry.go`): register the backend
(backend-type put plus a first server put), put the server document a second
time under the lease, spawn the revoke watcher (modelled separately), then
register the frontends in order. -/
def vStart (r : VRegistry) (store : EtcdStore) : StartOutcome :=
  match vRegisterBackend r.chroot r.backendSpec store ⟨0, []⟩ with
  | (st1, some e) =>
    ⟨st1.puts, some (wrapErr (("failed to register backend, ").data
      ++ r.backendSpec.ID) e), false⟩
  | (st1, none) =>
    match doPut store (.server r.chroot r.backendSpec.AppName r.backendSpec.ID)
        (.raw r.backendSpec.serverSpecVal) true st1 with
    | (st2, some e) =>
      ⟨st2.puts, some (wrapErr (("failed to write backend spec").data) e), false⟩
    | (st2, none) => vStartFrontends store r.chroot r.frontendSpecs st2

/-- The always-successful store schedule. -/
def storeOk : EtcdStore := fun _ => none

/-- The middleware put trace produced by a successful middleware loop started
at position `i`. -/
def mwTrace (chroot host id : Str) : List Middleware → Nat → List VPut
  | [], _ => []
  | m :: rest, i =>
    ⟨.middleware chroot host id m.ID, .mwDoc { m with Priority := Int.ofNat i }, false⟩
      :: mwTrace chroot host id rest (i + 1)

/-- The put trace of one successfully registered frontend. -/
def fTrace (chroot : Str) (f : FrontendSpec) : List VPut :=
  ⟨.frontend chroot f.Host f.ID, .raw f.specVal, false⟩
    :: mwTrace chroot f.Host f.ID f.Middlewares 0

/-- Key classifiers, one per key family. -/
def VKey.isBackendTypeK : VKey → Bool
  | .backendType _ _ => true
  | _ => false

def VKey.isServerK : VKey → Bool
  | .server _ _ _ => true
  | _ => false

def VKey.isFrontendK : VKey → Bool
  | .frontend _ _ _ => true
  | _ => false

def VKey.isMiddlewareK : VKey → Bool
  | .middleware _ _ _ _ => true
  | _ => false

/-- Whether a key is a middleware key of the given frontend. -/
def isMwOf (chroot host id : Str) : VKey → Bool
  | .middleware c h i _ => decide (c = chroot ∧ h = host ∧ i = id)
  | _ => false

/-- The priority recorded in a written middleware document, if any. -/
def VPut.mwPriority (p : VPut) : Option Int :=
  match p.val with
  | .mwDoc m => some m.Priority
  | _ => none

/-- Running `Start` on a registry with one backend and exactly two frontends, all
puts succeeding. -/
def startTwo (chroot : Str) (bspec : BackendSpec) (f1 f2 : FrontendSpec) :
    StartOutcome :=
  vStart ⟨chroot, bspec, [f1, f2]⟩ storeOk

/-- Concrete backend spec used as test input. -/
def wBspec : BackendSpec :=
  ⟨("app").data, ("sid").data, ("tv").data, ("sv").data⟩

/-- Concrete frontend with two middlewares. -/
def wF1 : FrontendSpec :=
  ⟨("h1").data, ("i1").data, ("s1").data, [⟨("m1").data, 99⟩, ⟨("m2").data, 7⟩]⟩

/-- Concrete frontend with one middleware. -/
def wF2 : FrontendSpec :=
  ⟨("h2").data, ("i2").data, ("s2").data, [⟨("m3").data, 5⟩]⟩

/-- A store schedule whose very first put (the backend-type write) fails. -/
def wStoreFail0 : EtcdStore :=
  fun n => if n = 0 then some (("boom").data) else none

/-- Lifecycle state of one Registry after a successful `Start`: whether the
context is cancelled, whether the revoke attempt has been issued, whether the
watcher goroutine has exited, and whether `Stop` has returned. -/
structure LifecycleState where
  cancelled : Bool
  revokeIssued : Bool
  watcherExited : Bool
  stopReturned : Bool
deriving DecidableEq

/-- How many times `Start` (or anything else in `src/vulcand/registry.go`)
calls `wg.Add`: the revoke-watcher goroutine of `Start` is spawned without
registering it, so the count is zero. -/
def startWgAdds : Nat := 0

/-- The `sync.WaitGroup` counter `Stop`'s `wg.Wait()` observes: additions
minus completions — `wg.Done` is likewise never called, so the counter is
just `startWgAdds`. -/
def wgCounter (_ : LifecycleState) : Nat := startWgAdds

/-- Atomic scheduler events of the two threads involved in `Stop`:
`Stop`'s `cancelFunc()`, `Stop`'s `wg.Wait()` returning (enabled only when
the waitgroup counter is zero), and the watcher goroutine observing
`ctx.Done()`, issuing `client.Revoke` and returning. -/
inductive LEvent where
  | stopCancel
  | stopWaitReturn
  | watcherRevokeAndExit
deriving DecidableEq

/-- One interleaving step; `none` when the event is not enabled. -/
def lstep (s : LifecycleState) : LEvent → Option LifecycleState
  | .stopCancel =>
    if s.cancelled then none else some { s with cancelled := true }
  | .stopWaitReturn =>
    if s.cancelled ∧ ¬ s.stopReturned ∧ wgCounter s = 0 then
      some { s with stopReturned := true }
    else none
  | .watcherRevokeAndExit =>
    if s.cancelled ∧ ¬ s.watcherExited then
      some { s with revokeIssued := true, watcherExited := true }
    else none

/-- Run a schedule of events; `none` when some event was not enabled. -/
def lrun (s : LifecycleState) : List LEvent → Option LifecycleState
  | [] => some s
  | e :: rest =>
    match lstep s e with
    | none => none
    | some s2 => lrun s2 rest

/-- The state right after `Start` returned: watcher spawned, nothing
cancelled. -/
def startedState : LifecycleState := ⟨false, false, false, false⟩

theorem goJoin_nil (sep : Str) : goJoin [] sep = [] := rfl

theorem goJoin_single (sep a : Str) : goJoin [a] sep = a := by
  simp [goJoin, List.intercalate, List.intersperse]

theorem goJoin_cons_cons (sep a b : Str) (t : List Str) :
    goJoin (a :: b :: t) sep = a ++ sep ++ goJoin (b :: t) sep := by
  simp [goJoin, List.intercalate, List.intersperse]

theorem replaceChar_append (old new : Char) (s t : Str) :
    replaceChar old new (s ++ t) = replaceChar old new s ++ replaceChar old new t := by
  simp [replaceChar]

theorem replaceChar_eq_self (old new : Char) (s : Str) (h : old ∉ s) :
    replaceChar old new s = s := by
  induction s with
  | nil => rfl
  | cons c t ih =>
    simp only [List.mem_cons, not_or] at h
    have hc : ¬ c = old := fun hco => h.1 hco.symm
    simp [replaceChar, hc] at ih ⊢
    exact ih h.2

theorem mem_goJoin {c : Char} (ms : List Str) (sep : Str) (h : c ∈ goJoin ms sep) :
    c ∈ sep ∨ ∃ s ∈ ms, c ∈ s := by
  induction ms with
  | nil => simp [goJoin_nil] at h
  | cons a t ih =>
    cases t with
    | nil =>
      rw [goJoin_single] at h
      exact Or.inr ⟨a, by simp, h⟩
    | cons b t' =>
      rw [goJoin_cons_cons] at h
      rcases List.mem_append.1 h with h1 | h2
      · rcases List.mem_append.1 h1 with ha | hs
        · exact Or.inr ⟨a, by simp, ha⟩
        · exact Or.inl hs
      · rcases ih h2 with hs | ⟨s, hsm, hcs⟩
        · exact Or.inl hs
        · exact Or.inr ⟨s, by simp [hsm], hcs⟩

theorem slash_not_mem_goJoin (ms : List Str) (h : ∀ s ∈ ms, ('/' : Char) ∉ s) :
    ('/' : Char) ∉ goJoin ms ['.'] := by
  intro hc
  rcases mem_goJoin ms ['.'] hc with hs | ⟨s, hsm, hcs⟩
  · simp at hs
  · exact h s hsm hcs

theorem data_trieRoute_open :
    ("TrieRoute(\"").data = ("TrieRoute(").data ++ ['"'] := by decide

theorem data_quote_sep :
    ("\", \"").data = ['"'] ++ ((", ").data ++ ['"']) := by decide

theorem data_close :
    ("\")").data = ['"'] ++ (")").data := by decide

theorem quoted_join (a : Str) (ms : List Str) (q : Str) :
    goJoin ((a :: ms ++ [q]).map quoteStr) ((", ").data)
      = '"' :: (goJoin (a :: ms) (("\", \"").data)
          ++ ("\", \"").data ++ q ++ ['"']) := by
  induction ms generalizing a with
  | nil =>
    simp [quoteStr, goJoin_cons_cons, goJoin_single, data_quote_sep]
  | cons b t ih =>
    have hih := ih b
    simp only [List.cons_append, List.map_cons] at hih ⊢
    rw [goJoin_cons_cons, goJoin_cons_cons ("\", \"").data a b t, hih]
    simp [quoteStr, data_quote_sep]

/-- Claim C4 (amended): for every method list whose methods contain no slash,
the derived location ID equals the spec formula
`lowercase(join(methods, ".") + path)` with the path rewritten `{}` to `<>`
and slashes to dots; and for methods `GET, POST` and path `/resources/{id}`
the ID is exactly `get.post.resources.<id>`.  (In general the code applies
the slash-to-dot replacement to the whole joined string, methods included.) -/
theorem claim_C4_location_id_formula :
    (∀ (methods : List Str) (path : Str), (∀ s ∈ methods, ('/' : Char) ∉ s) →
      locationID methods path = specLocationID methods path)
    ∧ locationID [("GET").data, ("POST").data] ("/resources/{id}").data
        = ("get.post.resources.<id>").data := by
  constructor
  · intro ms p h
    unfold locationID specLocationID makeLocationID
    rw [replaceChar_append, replaceChar_eq_self _ _ _ (slash_not_mem_goJoin ms h)]
  · decide

/-- Witness for claim C4's theorem at methods `GET, POST`,
path `/resources/{id}`. -/
theorem claim_C4_location_id_formula_witness :
    (∀ s ∈ [("GET").data, ("POST").data], ('/' : Char) ∉ s)
    ∧ locationID [("GET").data, ("POST").data] ("/resources/{id}").data
        = specLocationID [("GET").data, ("POST").data] ("/resources/{id}").data :=
  ⟨by decide, claim_C4_location_id_formula.1 _ _ (by decide)⟩

/-- Counterexample to claim C4 as stated: for a method containing a slash the
code's ID (slash replaced everywhere) differs from the claimed formula
(slash replaced in the path only). -/
theorem claim_C4_location_id_formula_cex :
    locationID [("GET/POST").data] [] ≠ specLocationID [("GET/POST").data] [] := by
  decide

/-- Claim C5: for every nonempty method list the route-match expression is
`TrieRoute(` followed by the double-quoted methods in caller order and the
double-quoted converted path, comma-separated, then `)`; and for methods
`GET` and path `/hello` it is exactly `TrieRoute("GET", "/hello")`. -/
theorem claim_C5_trie_route_format :
    (∀ (methods : List Str) (path : Str), methods ≠ [] →
      locationPathExpr methods path = trieRouteSpecForm methods (convertPath path))
    ∧ locationPathExpr [("GET").data] ("/hello").data
        = ("TrieRoute(\"GET\", \"/hello\")").data := by
  constructor
  · intro ms p h
    match ms with
    | a :: t =>
      unfold locationPathExpr makeLocationPath trieRouteSpecForm
      rw [quoted_join a t (convertPath p), data_trieRoute_open, data_close]
      simp [List.append_assoc]
  · decide

/-- Witness for claim C5's theorem at methods `GET`, path `/hello`. -/
theorem claim_C5_trie_route_format_witness :
    ([("GET").data] ≠ ([] : List Str))
    ∧ locationPathExpr [("GET").data] ("/hello").data
        = trieRouteSpecForm [("GET").data] (convertPath ("/hello").data) :=
  ⟨by decide, claim_C5_trie_route_format.1 _ _ (by decide)⟩

/-- Claim C6: marshalling the location options embeds the failover predicate
verbatim (no HTML escaping); for the predicate `A() && B() <3` the document
contains the literal `&&` and `<3` and not their unicode escapes. -/
theorem claim_C6_no_html_escape :
    (∀ p : Str, p <:+: (locationOptionsMarshalJSON p).1)
    ∧ (("&&").data <:+: (locationOptionsMarshalJSON (("A() && B() <3").data)).1)
    ∧ (("<3").data <:+: (locationOptionsMarshalJSON (("A() && B() <3").data)).1)
    ∧ ¬ (("\\u0026\\u0026").data <:+: (locationOptionsMarshalJSON (("A() && B() <3").data)).1)
    ∧ ¬ (("\\u003c3").data <:+: (locationOptionsMarshalJSON (("A() && B() <3").data)).1) := by
  refine ⟨fun p => ⟨("\x7b\"FailoverPredicate\": \"").data, ("\"\x7d").data, by
    simp [locationOptionsMarshalJSON]⟩, by decide, by decide, by decide, by decide⟩

/-- Claim C10: `LocationOptions.MarshalJSON` is total: for every predicate it
returns the fixed JSON template with the predicate spliced in, and a nil
error. -/
theorem claim_C10_marshal_total (p : Str) :
    locationOptionsMarshalJSON p
      = (("\x7b\"FailoverPredicate\": \"").data ++ p ++ ("\"\x7d").data, none) := rfl

theorem makeLocationID_eq_map (ms : List Str) (p : Str) :
    makeLocationID ms p = (goJoin ms ['.'] ++ p).map idChar := by
  simp only [makeLocationID, goToLower, replaceChar, List.map_append, List.map_map]
  rfl

theorem map_injOn {f : Char → Char} {P : Char → Prop}
    (hf : ∀ c1, P c1 → ∀ c2, P c2 → f c1 = f c2 → c1 = c2) :
    ∀ (l1 l2 : Str), (∀ c ∈ l1, P c) → (∀ c ∈ l2, P c) →
      l1.map f = l2.map f → l1 = l2 := by
  intro l1
  induction l1 with
  | nil =>
    intro l2 _ _ h
    cases l2 with
    | nil => rfl
    | cons b u => simp at h
  | cons a t ih =>
    intro l2 h1 h2 h
    cases l2 with
    | nil => simp at h
    | cons b u =>
      simp only [List.map_cons, List.cons.injEq] at h
      have hab := hf a (h1 a (by simp)) b (h2 b (by simp)) h.1
      have htu := ih u (fun c hc => h1 c (by simp [hc])) (fun c hc => h2 c (by simp [hc])) h.2
      rw [hab, htu]

theorem split_at_forbidden (c : Char) :
    ∀ (x y u v : Str), c ∉ x → c ∉ y → x ++ c :: u = y ++ c :: v → x = y ∧ u = v := by
  intro x
  induction x with
  | nil =>
    intro y u v _ hy h
    cases y with
    | nil =>
      simp only [List.nil_append, List.cons.injEq] at h
      exact ⟨rfl, h.2⟩
    | cons b y' =>
      simp only [List.nil_append, List.cons_append, List.cons.injEq] at h
      simp only [List.mem_cons, not_or] at hy
      exact absurd h.1 hy.1
  | cons a x' ih =>
    intro y u v hx hy h
    cases y with
    | nil =>
      simp only [List.cons_append, List.nil_append, List.cons.injEq] at h
      simp only [List.mem_cons, not_or] at hx
      exact absurd h.1.symm hx.1
    | cons b y' =>
      simp only [List.cons_append, List.cons.injEq] at h
      have hx' : c ∉ x' := by simp only [List.mem_cons, not_or] at hx; exact hx.2
      have hy' : c ∉ y' := by simp only [List.mem_cons, not_or] at hy; exact hy.2
      obtain ⟨he, hu⟩ := ih y' u v hx' hy' h.2
      exact ⟨by rw [h.1, he], hu⟩

theorem goJoin_injective (c : Char) (sep' : Str) :
    ∀ (m1 m2 : List Str), m1.length = m2.length →
      (∀ s ∈ m1, c ∉ s) → (∀ s ∈ m2, c ∉ s) →
      goJoin m1 (c :: sep') = goJoin m2 (c :: sep') → m1 = m2 := by
  intro m1
  induction m1 with
  | nil =>
    intro m2 hl _ _ _
    cases m2 with
    | nil => rfl
    | cons => simp at hl
  | cons a t ih =>
    intro m2 hl h1 h2 h
    cases m2 with
    | nil => simp at hl
    | cons b u =>
      cases t with
      | nil =>
        cases u with
        | nil =>
          rw [goJoin_single, goJoin_single] at h
          rw [h]
        | cons => simp at hl
      | cons a2 t' =>
        cases u with
        | nil => simp at hl
        | cons b2 u' =>
          rw [goJoin_cons_cons, goJoin_cons_cons] at h
          have h' : a ++ c :: (sep' ++ goJoin (a2 :: t') (c :: sep'))
              = b ++ c :: (sep' ++ goJoin (b2 :: u') (c :: sep')) := by
            simpa [List.append_assoc] using h
          obtain ⟨hab, hrest⟩ :=
            split_at_forbidden c a b _ _ (h1 a (by simp)) (h2 b (by simp)) h'
          have hJ : goJoin (a2 :: t') (c :: sep') = goJoin (b2 :: u') (c :: sep') :=
            List.append_cancel_left hrest
          have hrec := ih (b2 :: u') (by simpa using hl)
            (fun s hs => h1 s (by simp [List.mem_cons] at hs ⊢; tauto))
            (fun s hs => h2 s (by simp [List.mem_cons] at hs ⊢; tauto)) hJ
          rw [hab, hrec]

theorem idChar_injOn_dotUpper :
    ∀ c1 ∈ '.' :: upperChars, ∀ c2 ∈ '.' :: upperChars,
      idChar c1 = idChar c2 → c1 = c2 := by decide

theorem upperChars_avoid :
    ∀ c ∈ upperChars, c ≠ '.' ∧ c ≠ '"' ∧ c ≠ '/' := by decide

theorem data_sepQ : ("\", \"").data = '"' :: ((", \"").data) := by decide

/-- Claim C7 (amended): for method lists over the uppercase ASCII alphabet of
HTTP method names, two registrations with the same path whose method lists
differ only in order have different derived IDs and different route-match
expressions.  (Without the alphabet restriction this fails: lowercasing can
identify the IDs of case-variant permutations.) -/
theorem claim_C7_method_order_sensitive (m1 m2 : List Str) (p : Str)
    (h1 : ∀ s ∈ m1, ∀ c ∈ s, c ∈ upperChars)
    (h2 : ∀ s ∈ m2, ∀ c ∈ s, c ∈ upperChars)
    (hperm : List.Perm m1 m2) (hne : m1 ≠ m2) :
    locationID m1 p ≠ locationID m2 p
      ∧ locationPathExpr m1 p ≠ locationPathExpr m2 p := by
  have avoid1 : ∀ s ∈ m1, ('.' : Char) ∉ s := by
    intro s hs hdot
    exact (upperChars_avoid '.' (h1 s hs '.' hdot)).1 rfl
  have avoid2 : ∀ s ∈ m2, ('.' : Char) ∉ s := by
    intro s hs hdot
    exact (upperChars_avoid '.' (h2 s hs '.' hdot)).1 rfl
  have avoidQ1 : ∀ s ∈ m1, ('"' : Char) ∉ s := by
    intro s hs hq
    exact (upperChars_avoid '"' (h1 s hs '"' hq)).2.1 rfl
  have avoidQ2 : ∀ s ∈ m2, ('"' : Char) ∉ s := by
    intro s hs hq
    exact (upperChars_avoid '"' (h2 s hs '"' hq)).2.1 rfl
  constructor
  · intro heq
    rw [locationID, locationID, makeLocationID_eq_map, makeLocationID_eq_map,
      List.map_append, List.map_append] at heq
    have hJ := List.append_cancel_right heq
    have hchars1 : ∀ c ∈ goJoin m1 ['.'], c ∈ '.' :: upperChars := by
      intro c hc
      rcases mem_goJoin m1 ['.'] hc with hs | ⟨s, hsm, hcs⟩
      · simp at hs; simp [hs]
      · simp [h1 s hsm c hcs]
    have hchars2 : ∀ c ∈ goJoin m2 ['.'], c ∈ '.' :: upperChars := by
      intro c hc
      rcases mem_goJoin m2 ['.'] hc with hs | ⟨s, hsm, hcs⟩
      · simp at hs; simp [hs]
      · simp [h2 s hsm c hcs]
    have hjoin := map_injOn idChar_injOn_dotUpper _ _ hchars1 hchars2 hJ
    exact hne (goJoin_injective '.' [] m1 m2 hperm.length_eq avoid1 avoid2 hjoin)
  · intro heq
    unfold locationPathExpr makeLocationPath at heq
    have h1' : ("TrieRoute(\"").data
          ++ (goJoin m1 (("\", \"").data)
            ++ (("\", \"").data ++ (convertPath p ++ ("\")").data)))
        = ("TrieRoute(\"").data
          ++ (goJoin m2 (("\", \"").data)
            ++ (("\", \"").data ++ (convertPath p ++ ("\")").data))) := by
      simpa [List.append_assoc] using heq
    have h2' := List.append_cancel_left h1'
    have hJ : goJoin m1 (("\", \"").data) = goJoin m2 (("\", \"").data) :=
      List.append_cancel_right h2'
    rw [data_sepQ] at hJ
    exact hne (goJoin_injective '"' ((", \"").data) m1 m2 hperm.length_eq
      avoidQ1 avoidQ2 hJ)

/-- Witness for claim C7's theorem: `GET, POST` versus `POST, GET` on path
`/x` produce different IDs and different match expressions. -/
theorem claim_C7_method_order_sensitive_witness :
    (List.Perm [("GET").data, ("POST").data] [("POST").data, ("GET").data]
      ∧ [("GET").data, ("POST").data] ≠ [("POST").data, ("GET").data])
    ∧ (locationID [("GET").data, ("POST").data] ("/x").data
        ≠ locationID [("POST").data, ("GET").data] ("/x").data
      ∧ locationPathExpr [("GET").data, ("POST").data] ("/x").data
        ≠ locationPathExpr [("POST").data, ("GET").data] ("/x").data) :=
  ⟨⟨by decide, by decide⟩,
    claim_C7_method_order_sensitive _ _ _ (by decide) (by decide) (by decide) (by decide)⟩

/-- Counterexample to claim C7 as stated: the method lists `GET, get` and
`get, GET` differ only in order, yet lowercasing makes the derived IDs
coincide, so the ID does not differ. -/
theorem claim_C7_method_order_sensitive_cex :
    List.Perm [("GET").data, ("get").data] [("get").data, ("GET").data]
    ∧ [("GET").data, ("get").data] ≠ [("get").data, ("GET").data]
    ∧ locationID [("GET").data, ("get").data] ("/x").data
        = locationID [("get").data, ("GET").data] ("/x").data := by
  refine ⟨by decide, by decide, by decide⟩

/-- Claim C8: Registry construction fills unset defaults — a non-positive TTL
becomes 30 seconds, a missing coordination-store config becomes the local
proxy endpoint `127.0.0.1:2379` — and explicitly supplied values are kept. -/
theorem claim_C8_config_defaults (cfg : Config) :
    ((cfg.TTL ≤ 0 → (newRegistryConfig cfg).TTL = 30 * 1000000000)
      ∧ (0 < cfg.TTL → (newRegistryConfig cfg).TTL = cfg.TTL))
    ∧ ((cfg.Etcd = none →
        (newRegistryConfig cfg).Etcd = some ⟨[("127.0.0.1:2379").data]⟩)
      ∧ (∀ e, cfg.Etcd = some e → (newRegistryConfig cfg).Etcd = some e))
    ∧ (newRegistryConfig cfg).Chroot = cfg.Chroot := by
  rcases cfg with ⟨etcd, chroot, ttl⟩
  by_cases httl : ttl ≤ 0 <;> cases etcd <;>
    simp [newRegistryConfig, httl, defaultRegistrationTTL, localEtcdProxy]

/-- Witness for claim C8's theorem at a config with no TTL and no Etcd
config: the defaults are filled in. -/
theorem claim_C8_config_defaults_witness :
    ((0 : Int) ≤ 0
      ∧ (newRegistryConfig ⟨none, [], 0⟩).TTL = 30 * 1000000000)
    ∧ (newRegistryConfig ⟨none, [], 0⟩).Etcd = some ⟨[("127.0.0.1:2379").data]⟩ :=
  ⟨⟨by decide, (claim_C8_config_defaults ⟨none, [], 0⟩).1.1 (by decide)⟩,
    (claim_C8_config_defaults ⟨none, [], 0⟩).2.1.1 rfl⟩

/-- Claim C9: when endpoint construction fails, `RegisterApp` returns nil,
discarding the error and issuing no writes; likewise `assumeMasterRole` and
`maintainMasterRole` return nil, write nothing and leave the state unchanged
when building the server spec fails. -/
theorem claim_C9_spec_errors_swallowed :
    (∀ (s : SMRegistry) (env : SMEnv) (e : Str),
      env.endpointRes = Except.error e → smRegisterApp s env = (none, [], s))
    ∧ (∀ (s : SMRegistry) (ep : Endpoint) (env : SMEnv) (e : Str),
        env.serverSpecRes = Except.error e →
        smAssumeMasterRole s ep env = (none, [], s)
          ∧ smMaintainMasterRole s ep env = (none, [], s)) := by
  constructor
  · intro s env e h
    simp [smRegisterApp, h]
  · intro s ep env e h
    exact ⟨by simp [smAssumeMasterRole, h], by simp [smMaintainMasterRole, h]⟩

/-- Witness for claim C9's theorem at a concrete registry and environment
whose endpoint construction and server-spec build both fail. -/
theorem claim_C9_spec_errors_swallowed_witness :
    ((SMEnv.mk (Except.error [('x')]) (Except.ok []) (Except.error [('y')])
        none none none).endpointRes = Except.error [('x')]
      ∧ smRegisterApp ⟨[], 5, false⟩
          (SMEnv.mk (Except.error [('x')]) (Except.ok []) (Except.error [('y')])
            none none none)
        = (none, [], ⟨[], 5, false⟩))
    ∧ smAssumeMasterRole ⟨[], 5, false⟩ ⟨[], []⟩
          (SMEnv.mk (Except.error [('x')]) (Except.ok []) (Except.error [('y')])
            none none none)
        = (none, [], ⟨[], 5, false⟩) :=
  ⟨⟨rfl, claim_C9_spec_errors_swallowed.1 _ _ _ rfl⟩,
    (claim_C9_spec_errors_swallowed.2 ⟨[], 5, false⟩ ⟨[], []⟩ _ _ rfl).1⟩

theorem vPutMiddlewares_ok (chroot host id : Str) (mws : List Middleware) :
    ∀ (i : Nat) (st : WriteState),
      vPutMiddlewares storeOk chroot host id mws i st
        = (⟨st.opIdx + mws.length, st.puts ++ mwTrace chroot host id mws i⟩, none) := by
  induction mws with
  | nil => intro i st; simp [vPutMiddlewares, mwTrace]
  | cons m rest ih =>
    intro i st
    simp only [vPutMiddlewares, doPut, storeOk, mwTrace, ih, List.append_assoc,
      List.singleton_append, List.length_cons]
    exact congrArg (fun n => ((⟨n, _⟩ : WriteState), none)) (by omega)

theorem vRegisterFrontend_ok (chroot : Str) (f : FrontendSpec) (st : WriteState) :
    vRegisterFrontend storeOk chroot f st
      = (⟨st.opIdx + 1 + f.Middlewares.length, st.puts ++ fTrace chroot f⟩, none) := by
  simp [vRegisterFrontend, doPut, storeOk, vPutMiddlewares_ok, fTrace]

theorem vStartFrontends_ok (chroot : Str) (fes : List FrontendSpec) :
    ∀ st : WriteState,
      vStartFrontends storeOk chroot fes st
        = ⟨st.puts ++ (fes.map (fTrace chroot)).flatten, none, false⟩ := by
  induction fes with
  | nil => intro st; simp [vStartFrontends]
  | cons f rest ih =>
    intro st
    simp [vStartFrontends, vRegisterFrontend_ok, ih]

theorem vStart_ok (r : VRegistry) :
    vStart r storeOk
      = ⟨⟨.backendType r.chroot r.backendSpec.AppName, .raw r.backendSpec.typeSpecVal, false⟩
          :: ⟨.server r.chroot r.backendSpec.AppName r.backendSpec.ID,
                .raw r.backendSpec.serverSpecVal, true⟩
          :: ⟨.server r.chroot r.backendSpec.AppName r.backendSpec.ID,
                .raw r.backendSpec.serverSpecVal, true⟩
          :: (r.frontendSpecs.map (fTrace r.chroot)).flatten,
         none, false⟩ := by
  simp [vStart, vRegisterBackend, doPut, storeOk, vStartFrontends_ok]

theorem mem_mwTrace {p : VPut} (c h i : Str) (mws : List Middleware) (k : Nat)
    (hp : p ∈ mwTrace c h i mws k) :
    ∃ mid pr, p = ⟨.middleware c h i mid, .mwDoc ⟨mid, pr⟩, false⟩ := by
  induction mws generalizing k with
  | nil => simp [mwTrace] at hp
  | cons m rest ih =>
    rcases List.mem_cons.1 hp with hh | ht
    · exact ⟨m.ID, Int.ofNat k, hh⟩
    · exact ih (k + 1) ht

theorem mwTrace_length (c h i : Str) (mws : List Middleware) :
    ∀ k, (mwTrace c h i mws k).length = mws.length := by
  induction mws with
  | nil => intro k; simp [mwTrace]
  | cons m rest ih => intro k; simp [mwTrace, ih]

theorem mwTrace_priorities (c h i : Str) (mws : List Middleware) :
    ∀ k, (mwTrace c h i mws k).map VPut.mwPriority
      = (List.range mws.length).map (fun n => some (Int.ofNat (k + n))) := by
  induction mws with
  | nil => intro k; simp [mwTrace]
  | cons m rest ih =>
    intro k
    have harith : ∀ n : Nat, k + 1 + n = k + (n + 1) := by omega
    simp [mwTrace, VPut.mwPriority, List.range_succ_eq_map, ih (k + 1),
      List.map_map, Function.comp, harith]

theorem mwTrace_filter_self (c h i : Str) (mws : List Middleware) (k : Nat) :
    (mwTrace c h i mws k).filter (fun p => isMwOf c h i p.key)
      = mwTrace c h i mws k := by
  rw [List.filter_eq_self]
  intro p hp
  rcases mem_mwTrace c h i mws k hp with ⟨mid, pr, hpe⟩
  simp [hpe, isMwOf]

theorem mwTrace_filter_other (c h i h2 i2 : Str) (mws : List Middleware) (k : Nat)
    (hne : ¬ (h = h2 ∧ i = i2)) :
    (mwTrace c h i mws k).filter (fun p => isMwOf c h2 i2 p.key) = [] := by
  rw [List.filter_eq_nil_iff]
  intro p hp
  rcases mem_mwTrace c h i mws k hp with ⟨mid, pr, hpe⟩
  simp [hpe, isMwOf]
  intro hh hi
  exact absurd ⟨hh, hi⟩ hne

theorem mwTrace_filter_notK (c h i : Str) (mws : List Middleware) (k : Nat)
    (q : VKey → Bool) (hq : ∀ c2 h2 i2 m2, q (.middleware c2 h2 i2 m2) = false) :
    (mwTrace c h i mws k).filter (fun p => q p.key) = [] := by
  rw [List.filter_eq_nil_iff]
  intro p hp
  rcases mem_mwTrace c h i mws k hp with ⟨mid, pr, hpe⟩
  simp [hpe, hq]

theorem mwTrace_filter_mwK (c h i : Str) (mws : List Middleware) (k : Nat) :
    (mwTrace c h i mws k).filter (fun p => p.key.isMiddlewareK)
      = mwTrace c h i mws k := by
  rw [List.filter_eq_self]
  intro p hp
  rcases mem_mwTrace c h i mws k hp with ⟨mid, pr, hpe⟩
  simp [hpe, VKey.isMiddlewareK]

theorem mwTrace_filter_btK (c h i : Str) (mws : List Middleware) (k : Nat) :
    (mwTrace c h i mws k).filter (fun p => p.key.isBackendTypeK) = [] :=
  mwTrace_filter_notK c h i mws k VKey.isBackendTypeK (fun _ _ _ _ => rfl)

theorem mwTrace_filter_srvK (c h i : Str) (mws : List Middleware) (k : Nat) :
    (mwTrace c h i mws k).filter (fun p => p.key.isServerK) = [] :=
  mwTrace_filter_notK c h i mws k VKey.isServerK (fun _ _ _ _ => rfl)

theorem mwTrace_filter_feK (c h i : Str) (mws : List Middleware) (k : Nat) :
    (mwTrace c h i mws k).filter (fun p => p.key.isFrontendK) = [] :=
  mwTrace_filter_notK c h i mws k VKey.isFrontendK (fun _ _ _ _ => rfl)

theorem mwTrace_leased_false {p : VPut} (c h i : Str) (mws : List Middleware)
    (k : Nat) (hp : p ∈ mwTrace c h i mws k) : p.leased = false := by
  rcases mem_mwTrace c h i mws k hp with ⟨mid, pr, hpe⟩
  simp [hpe]

theorem fTrace_serverK_false {p : VPut} (c : Str) (f : FrontendSpec)
    (hp : p ∈ fTrace c f) : p.key.isServerK = false := by
  simp only [fTrace, List.mem_cons] at hp
  rcases hp with hh | ht
  · simp [hh, VKey.isServerK]
  · rcases mem_mwTrace _ _ _ _ _ ht with ⟨mid, pr, hpe⟩
    simp [hpe, VKey.isServerK]

theorem fTrace_leased_false {p : VPut} (c : Str) (f : FrontendSpec)
    (hp : p ∈ fTrace c f) : p.leased = false := by
  simp only [fTrace, List.mem_cons] at hp
  rcases hp with hh | ht
  · simp [hh]
  · exact mwTrace_leased_false _ _ _ _ _ ht

@[simp] theorem isBackendTypeK_bt (c a : Str) :
    (VKey.backendType c a).isBackendTypeK = true := rfl

@[simp] theorem isBackendTypeK_srv (c a i : Str) :
    (VKey.server c a i).isBackendTypeK = false := rfl

@[simp] theorem isBackendTypeK_fe (c h i : Str) :
    (VKey.frontend c h i).isBackendTypeK = false := rfl

@[simp] theorem isServerK_bt (c a : Str) :
    (VKey.backendType c a).isServerK = false := rfl

@[simp] theorem isServerK_srv (c a i : Str) :
    (VKey.server c a i).isServerK = true := rfl

@[simp] theorem isServerK_fe (c h i : Str) :
    (VKey.frontend c h i).isServerK = false := rfl

@[simp] theorem isFrontendK_bt (c a : Str) :
    (VKey.backendType c a).isFrontendK = false := rfl

@[simp] theorem isFrontendK_srv (c a i : Str) :
    (VKey.server c a i).isFrontendK = false := rfl

@[simp] theorem isFrontendK_fe (c h i : Str) :
    (VKey.frontend c h i).isFrontendK = true := rfl

@[simp] theorem isMiddlewareK_bt (c a : Str) :
    (VKey.backendType c a).isMiddlewareK = false := rfl

@[simp] theorem isMiddlewareK_srv (c a i : Str) :
    (VKey.server c a i).isMiddlewareK = false := rfl

@[simp] theorem isMiddlewareK_fe (c h i : Str) :
    (VKey.frontend c h i).isMiddlewareK = false := rfl

@[simp] theorem isMwOf_bt (r hh ii c a : Str) :
    isMwOf r hh ii (VKey.backendType c a) = false := rfl

@[simp] theorem isMwOf_srv (r hh ii c a i : Str) :
    isMwOf r hh ii (VKey.server c a i) = false := rfl

@[simp] theorem isMwOf_fe (r hh ii c h i : Str) :
    isMwOf r hh ii (VKey.frontend c h i) = false := rfl

/-- Claim C3: for a registry with one backend and two distinct frontends, a
successful `Start` writes exactly one backend-type key without the lease,
exactly one distinct server key with every server put under the lease,
exactly the two frontend keys, and one middleware put per registered
middleware whose recorded priority is its zero-based index within its own
frontend's middleware list. -/
theorem claim_C3_start_key_counts (chroot : Str) (bspec : BackendSpec)
    (f1 f2 : FrontendSpec)
    (hpair : (f1.Host, f1.ID) ≠ (f2.Host, f2.ID)) :
    (startTwo chroot bspec f1 f2).error = none
    ∧ (startTwo chroot bspec f1 f2).puts.filter (fun p => p.key.isBackendTypeK)
        = [⟨.backendType chroot bspec.AppName, .raw bspec.typeSpecVal, false⟩]
    ∧ (((startTwo chroot bspec f1 f2).puts.filter (fun p => p.key.isServerK)).map
          (fun p => p.key)).dedup
        = [VKey.server chroot bspec.AppName bspec.ID]
    ∧ (∀ p ∈ (startTwo chroot bspec f1 f2).puts,
        p.key.isServerK = true → p.leased = true)
    ∧ ((startTwo chroot bspec f1 f2).puts.filter (fun p => p.key.isFrontendK)).map
          (fun p => p.key)
        = [VKey.frontend chroot f1.Host f1.ID, VKey.frontend chroot f2.Host f2.ID]
    ∧ VKey.frontend chroot f1.Host f1.ID ≠ VKey.frontend chroot f2.Host f2.ID
    ∧ (∀ p ∈ (startTwo chroot bspec f1 f2).puts,
        p.key.isFrontendK = true → p.leased = false)
    ∧ ((startTwo chroot bspec f1 f2).puts.filter
          (fun p => p.key.isMiddlewareK)).length
        = f1.Middlewares.length + f2.Middlewares.length
    ∧ ((startTwo chroot bspec f1 f2).puts.filter
          (fun p => isMwOf chroot f1.Host f1.ID p.key)).map VPut.mwPriority
        = (List.range f1.Middlewares.length).map (fun n => some (Int.ofNat n))
    ∧ ((startTwo chroot bspec f1 f2).puts.filter
          (fun p => isMwOf chroot f2.Host f2.ID p.key)).map VPut.mwPriority
        = (List.range f2.Middlewares.length).map (fun n => some (Int.ofNat n)) := by
  have hne12 : ¬ (f1.Host = f2.Host ∧ f1.ID = f2.ID) := by
    intro hhi
    exact hpair (by rw [hhi.1, hhi.2])
  have hne21 : ¬ (f2.Host = f1.Host ∧ f2.ID = f1.ID) := by
    intro hhi
    exact hpair (by rw [hhi.1, hhi.2])
  have hout : (startTwo chroot bspec f1 f2).puts
      = ⟨.backendType chroot bspec.AppName, .raw bspec.typeSpecVal, false⟩
        :: ⟨.server chroot bspec.AppName bspec.ID, .raw bspec.serverSpecVal, true⟩
        :: ⟨.server chroot bspec.AppName bspec.ID, .raw bspec.serverSpecVal, true⟩
        :: (fTrace chroot f1 ++ fTrace chroot f2) := by
    simp [startTwo, vStart_ok]
  refine ⟨by simp [startTwo, vStart_ok], ?_, ?_, ?_, ?_, ?_, ?_, ?_, ?_, ?_⟩
  · rw [hout]
    simp [List.filter_cons, List.filter_append, fTrace, mwTrace_filter_btK]
  · rw [hout]
    simp [List.filter_cons, List.filter_append, fTrace, mwTrace_filter_srvK,
      List.dedup_cons_of_mem]
  · rw [hout]
    intro p hp
    simp only [List.mem_cons, List.mem_append] at hp
    rcases hp with hh | hh | hh | hh | hh
    · intro hk
      simp [hh] at hk
    · simp [hh]
    · simp [hh]
    · intro hk
      rw [fTrace_serverK_false chroot f1 hh] at hk
      cases hk
    · intro hk
      rw [fTrace_serverK_false chroot f2 hh] at hk
      cases hk
  · rw [hout]
    simp [List.filter_cons, List.filter_append, fTrace, mwTrace_filter_feK]
  · simp only [ne_eq, VKey.frontend.injEq, not_and]
    intro _ hh hi
    exact hne12 ⟨hh, hi⟩
  · rw [hout]
    intro p hp
    simp only [List.mem_cons, List.mem_append] at hp
    rcases hp with hh | hh | hh | hh | hh
    · simp [hh]
    · intro hk
      simp [hh] at hk
    · intro hk
      simp [hh] at hk
    · intro _
      exact fTrace_leased_false chroot f1 hh
    · intro _
      exact fTrace_leased_false chroot f2 hh
  · rw [hout]
    simp [List.filter_cons, List.filter_append, fTrace, mwTrace_filter_mwK,
      mwTrace_length]
  · rw [hout]
    simp [List.filter_cons, List.filter_append, fTrace, mwTrace_filter_self,
      mwTrace_filter_other _ _ _ _ _ _ _ hne21, mwTrace_priorities]
  · rw [hout]
    simp [List.filter_cons, List.filter_append, fTrace, mwTrace_filter_self,
      mwTrace_filter_other _ _ _ _ _ _ _ hne12, mwTrace_priorities]

theorem vStartFrontends_cancel_iff (store : EtcdStore) (chroot : Str)
    (fes : List FrontendSpec) :
    ∀ st : WriteState,
      ((vStartFrontends store chroot fes st).cancelled = true
        ↔ ((vStartFrontends store chroot fes st).error).isSome = true) := by
  induction fes with
  | nil => intro st; simp [vStartFrontends]
  | cons f rest ih =>
    intro st
    rcases hv : vRegisterFrontend store chroot f st with ⟨st1, oe⟩
    rcases oe with _ | e
    · simp [vStartFrontends, hv, ih st1]
    · simp [vStartFrontends, hv]

/-- Claim C2 (amended): any put failure during `Start` aborts the remainder
and surfaces a wrapped error, but only frontend and middleware put failures
cancel the context; backend-type and server put failures return without
cancelling (and the failure of the second server write is reported without
the failing key).  Cancellation happens exactly when the failure occurs in
the frontend loop. -/
theorem claim_C2_put_failure_handling (r : VRegistry) (store : EtcdStore) :
    (∀ e, store 0 = some e →
      vStart r store
        = ⟨[], some ⟨[("failed to register backend, ").data ++ r.backendSpec.ID,
            ("failed to set backend type, ").data
              ++ (VKey.backendType r.chroot r.backendSpec.AppName).render], e⟩,
           false⟩)
    ∧ (∀ e, store 0 = none → store 1 = some e →
      vStart r store
        = ⟨[⟨.backendType r.chroot r.backendSpec.AppName,
              .raw r.backendSpec.typeSpecVal, false⟩],
           some ⟨[("failed to register backend, ").data ++ r.backendSpec.ID,
             ("failed to set backend spec, ").data
               ++ (VKey.server r.chroot r.backendSpec.AppName r.backendSpec.ID).render],
             e⟩,
           false⟩)
    ∧ (∀ e, store 0 = none → store 1 = none → store 2 = some e →
      vStart r store
        = ⟨[⟨.backendType r.chroot r.backendSpec.AppName,
              .raw r.backendSpec.typeSpecVal, false⟩,
            ⟨.server r.chroot r.backendSpec.AppName r.backendSpec.ID,
              .raw r.backendSpec.serverSpecVal, true⟩],
           some ⟨[("failed to write backend spec").data], e⟩, false⟩)
    ∧ ((vStart r store).cancelled = true → ((vStart r store).error).isSome = true)
    ∧ (store 0 = none → store 1 = none → store 2 = none →
        ((vStart r store).cancelled = true
          ↔ ((vStart r store).error).isSome = true)) := by
  refine ⟨?_, ?_, ?_, ?_, ?_⟩
  · intro e h0
    simp [vStart, vRegisterBackend, doPut, h0, wrapErr]
  · intro e h0 h1
    simp [vStart, vRegisterBackend, doPut, h0, h1, wrapErr]
  · intro e h0 h1 h2
    simp [vStart, vRegisterBackend, doPut, h0, h1, h2, wrapErr]
  · cases h0 : store 0 with
    | some e => simp [vStart, vRegisterBackend, doPut, h0, wrapErr]
    | none =>
      cases h1 : store 1 with
      | some e => simp [vStart, vRegisterBackend, doPut, h0, h1, wrapErr]
      | none =>
        cases h2 : store 2 with
        | some e => simp [vStart, vRegisterBackend, doPut, h0, h1, h2, wrapErr]
        | none =>
          simp only [vStart, vRegisterBackend, doPut, h0, h1, h2]
          exact (vStartFrontends_cancel_iff store r.chroot r.frontendSpecs _).1
  · intro h0 h1 h2
    simp only [vStart, vRegisterBackend, doPut, h0, h1, h2]
    exact vStartFrontends_cancel_iff store r.chroot r.frontendSpecs _

/-- Witness for claim C2's theorem: with the backend-type put failing, Start
aborts with the doubly wrapped error, records no puts and does not cancel. -/
theorem claim_C2_put_failure_handling_witness :
    wStoreFail0 0 = some (("boom").data)
    ∧ vStart ⟨[], wBspec, [wF1]⟩ wStoreFail0
        = ⟨[], some ⟨[("failed to register backend, ").data ++ wBspec.ID,
            ("failed to set backend type, ").data
              ++ (VKey.backendType [] wBspec.AppName).render], ("boom").data⟩,
           false⟩ :=
  ⟨rfl, (claim_C2_put_failure_handling ⟨[], wBspec, [wF1]⟩ wStoreFail0).1 _ rfl⟩

/-- Counterexample to claim C2 as stated: a failing backend-type put makes
Start return an error, yet the cancellation context is not cancelled. -/
theorem claim_C2_put_failure_handling_cex :
    ((vStart ⟨[], wBspec, [wF1]⟩ wStoreFail0).error).isSome = true
    ∧ (vStart ⟨[], wBspec, [wF1]⟩ wStoreFail0).cancelled = false := by
  exact ⟨rfl, rfl⟩

/-- Witness for claim C3's theorem at a concrete registry with two distinct
frontends carrying two and one middlewares. -/
theorem claim_C3_start_key_counts_witness :
    ((wF1.Host, wF1.ID) ≠ (wF2.Host, wF2.ID))
    ∧ ((startTwo [] wBspec wF1 wF2).error = none
      ∧ (startTwo [] wBspec wF1 wF2).puts.filter (fun p => p.key.isBackendTypeK)
          = [⟨.backendType [] wBspec.AppName, .raw wBspec.typeSpecVal, false⟩]
      ∧ (((startTwo [] wBspec wF1 wF2).puts.filter (fun p => p.key.isServerK)).map
            (fun p => p.key)).dedup
          = [VKey.server [] wBspec.AppName wBspec.ID]
      ∧ (∀ p ∈ (startTwo [] wBspec wF1 wF2).puts,
          p.key.isServerK = true → p.leased = true)
      ∧ ((startTwo [] wBspec wF1 wF2).puts.filter (fun p => p.key.isFrontendK)).map
            (fun p => p.key)
          = [VKey.frontend [] wF1.Host wF1.ID, VKey.frontend [] wF2.Host wF2.ID]
      ∧ VKey.frontend [] wF1.Host wF1.ID ≠ VKey.frontend [] wF2.Host wF2.ID
      ∧ (∀ p ∈ (startTwo [] wBspec wF1 wF2).puts,
          p.key.isFrontendK = true → p.leased = false)
      ∧ ((startTwo [] wBspec wF1 wF2).puts.filter
            (fun p => p.key.isMiddlewareK)).length
          = wF1.Middlewares.length + wF2.Middlewares.length
      ∧ ((startTwo [] wBspec wF1 wF2).puts.filter
            (fun p => isMwOf [] wF1.Host wF1.ID p.key)).map VPut.mwPriority
          = (List.range wF1.Middlewares.length).map (fun n => some (Int.ofNat n))
      ∧ ((startTwo [] wBspec wF1 wF2).puts.filter
            (fun p => isMwOf [] wF2.Host wF2.ID p.key)).map VPut.mwPriority
          = (List.range wF2.Middlewares.length).map (fun n => some (Int.ofNat n))) :=
  ⟨by decide, claim_C3_start_key_counts [] wBspec wF1 wF2 (by decide)⟩

/-- Claim C1 evidence: because the revoke-watcher goroutine is never
registered with the `sync.WaitGroup` (no `wg.Add` in `registry.go`),
`Stop`'s `wg.Wait()` is enabled immediately after `cancelFunc()`, so the
schedule in which `Stop` runs to completion before the watcher is ever
scheduled is valid — `Stop` returns with the revoke attempt not yet issued,
contradicting the claim that `Stop` blocks until it has been. -/
theorem claim_C1_stop_no_wait_barrier :
    lrun startedState [LEvent.stopCancel, LEvent.stopWaitReturn]
      = some ⟨true, false, false, true⟩
    ∧ (⟨true, false, false, true⟩ : LifecycleState).stopReturned = true
    ∧ (⟨true, false, false, true⟩ : LifecycleState).revokeIssued = false := by
  refine ⟨by decide, rfl, rfl⟩

